/-
Verification of the cancellation framework: shallow embedding of the
token, scope, stream wrapper, registry, bridge and source constructors,
with theorems checking the specified behaviour against the code.
-/
import Mathlib

set_option linter.unusedVariables false

/-- Cancellation reasons, from `CancellationReason` in core/models
(values used throughout the source: TIMEOUT, MANUAL, SIGNAL, CONDITION, PARENT). -/
inductive CancellationReason where
  | timeout
  | manual
  | signal
  | condition
  | parent
deriving DecidableEq, Repr

/-- Operation statuses, from `OperationStatus` in core/models
(PENDING, RUNNING, SHIELDED, COMPLETED, FAILED, CANCELLED). -/
inductive OperationStatus where
  | pending
  | running
  | shielded
  | completed
  | failed
  | cancelled
deriving DecidableEq, Repr

/-- State of a `CancellationToken` (core/token.py): public fields plus the
ordered callback list; callbacks are identified by numeric ids. -/
structure TokenState where
  id : String
  is_cancelled : Bool
  reason : Option CancellationReason
  message : Option String
  cancelled_at : Option Nat
  callbacks : List Nat
deriving DecidableEq, Repr

/-- A freshly constructed token (`CancellationToken.__init__`). -/
def freshToken (i : String) : TokenState :=
  { id := i, is_cancelled := false, reason := none, message := none,
    cancelled_at := none, callbacks := [] }

/-- `CancellationToken.cancel` (token.py lines 62-111): under the lock, if
already cancelled return False with no change and no callback invocation;
otherwise set the fields, and invoke every currently registered callback in
list order.  Returns (return value, new state, invoked callback ids in order). -/
def CancellationToken.cancel (s : TokenState) (reason : CancellationReason)
    (message : Option String) (now : Nat) : Bool × TokenState × List Nat :=
  if s.is_cancelled then (false, s, [])
  else
    (true,
     { s with is_cancelled := true, reason := some reason, message := message,
              cancelled_at := some now },
     s.callbacks)

/-- `CancellationToken.register_callback` (token.py lines 150-175): append
the callback, then if the token is already cancelled invoke it immediately.
Returns (new state, invoked callback ids). -/
def CancellationToken.register_callback (s : TokenState) (c : Nat) :
    TokenState × List Nat :=
  let s' := { s with callbacks := s.callbacks ++ [c] }
  if s.is_cancelled then (s', [c]) else (s', [])

/-- An operation applied to a token: a `cancel` call or a callback
registration. -/
inductive TokenOp where
  | cancelOp (reason : CancellationReason) (message : Option String) (now : Nat)
  | registerOp (c : Nat)
deriving DecidableEq, Repr

/-- One token operation: resulting state and the callback invocations it causes. -/
def tokenStep (s : TokenState) : TokenOp → TokenState × List Nat
  | .cancelOp r m t => ((CancellationToken.cancel s r m t).2.1,
                        (CancellationToken.cancel s r m t).2.2)
  | .registerOp c => CancellationToken.register_callback s c

/-- Run a sequence of token operations, collecting all callback invocations. -/
def tokenRun (s : TokenState) : List TokenOp → TokenState × List Nat
  | [] => (s, [])
  | op :: ops =>
      let p := tokenStep s op
      let q := tokenRun p.1 ops
      (q.1, p.2 ++ q.2)

/-- A Python value compared against a token: either another token or a
value of any other type. -/
inductive PyValue where
  | token (t : TokenState)
  | other
deriving DecidableEq, Repr

/-- `CancellationToken.__eq__` (token.py lines 56-60): False for non-tokens,
id comparison for tokens. -/
def token_eq (s : TokenState) : PyValue → Bool
  | .token u => s.id == u.id
  | .other => false

/-- `CancellationToken.__hash__` (token.py lines 52-54): `hash(self.id)` for
an arbitrary string-hash function. -/
def token_hash (h : String → Nat) (s : TokenState) : Nat :=
  h s.id

/-- Python `x or default` on an optional string: None and the empty string
are falsy and fall through to the default. -/
def pyOr (m : Option String) (d : String) : String :=
  match m with
  | some s => if s = "" then d else s
  | none => d

/-- The `on_linked_cancel` callback installed by
`LinkedCancellationToken.link` (token.py lines 199-232), run when the linked
token has been cancelled: with `preserve_reason` and a reason present on the
linked token, cancel this token with the linked token's reason and
`linked.message or "Linked token {id[:8]} was cancelled"`; otherwise cancel
with PARENT and the generic message. -/
def on_linked_cancel (preserve_reason : Bool) (linked : TokenState)
    (s : TokenState) (now : Nat) : TokenState :=
  if preserve_reason && linked.reason.isSome then
    (CancellationToken.cancel s (linked.reason.getD .manual)
      (some (pyOr linked.message
        ("Linked token " ++ linked.id.take 8 ++ " was cancelled"))) now).2.1
  else
    (CancellationToken.cancel s .parent
      (some ("Linked token " ++ linked.id.take 8 ++ " was cancelled")) now).2.1

/-- A cancellable together with the nested `_cancellables_to_link` list that
`combine` stores on a combined scope (cancellable.py lines 183-220). -/
inductive CTree where
  | mk (token : TokenState) (comps : List CTree)

/-- The token of a `CTree` node. -/
def CTree.token : CTree → TokenState
  | .mk t _ => t

/-- The nested combined components of a `CTree` node. -/
def CTree.comps : CTree → List CTree
  | .mk _ cs => cs

/-- `Cancellable._collect_all_tokens` (cancellable.py lines 454-463): for
each cancellable in order, append its token if not already present (Python
`in` uses `__eq__`, i.e. id equality), then recurse into its own
`_cancellables_to_link`. -/
def collectTokens : List CTree → List TokenState → List TokenState
  | [], acc => acc
  | .mk tok comps :: rest, acc =>
      let acc' := if acc.any (fun u => u.id == tok.id) then acc else acc ++ [tok]
      collectTokens rest (collectTokens comps acc')

/-- A combined scope as built by `Cancellable.combine`: a fresh token, the
stored component list, and the `preserve_reason` metadata flag (set to True
by `combine`). -/
structure CombinedScope where
  token : TokenState
  components : List CTree
  preserve_reason : Bool

/-- `Cancellable.combine` (cancellable.py lines 183-220): fresh default
token, `_cancellables_to_link := self :: others`, metadata
`preserve_reason := True`. -/
def Cancellable.combine (i : String) (a : CTree) (others : List CTree) :
    CombinedScope :=
  { token := freshToken i, components := a :: others, preserve_reason := true }

/-- The token links installed by `Cancellable.__aenter__` for a combined
scope (cancellable.py lines 283-296): every transitively collected component
token, each linked with the scope's `preserve_reason` flag. -/
def Cancellable.enterLinks (c : CombinedScope) : List (TokenState × Bool) :=
  (collectTokens c.components []).map (fun t => (t, c.preserve_reason))

/-- How a wrapped iterator itself ends once exhausted of items: normal
exhaustion or an exception from the underlying iterator. -/
inductive StreamEnding where
  | exhausted
  | err (e : String)
deriving DecidableEq, Repr

/-- How the stream wrapper exits. -/
inductive StreamExit where
  | cancelledExit
  | failedExit (e : String)
  | completedExit
deriving DecidableEq, Repr

/-- The `partial_result` dict written by `Cancellable.stream`: `completed`
is optional because not every branch of the source writes that key. -/
structure PartRes (α : Type) where
  count : Nat
  buffer : Option (List α)
  completed : Option Bool
deriving DecidableEq, Repr

/-- Buffer size limiting in `Cancellable.stream` (cancellable.py lines
529-531): after appending, if the buffer exceeds 1000 items keep the last
1000 (`buffer[-1000:]`). -/
def trimBuf {α : Type} (buf : List α) : List α :=
  if buf.length > 1000 then buf.drop (buf.length - 1000) else buf

/-- The per-item loop of `Cancellable.stream` (cancellable.py lines
519-534).  `cancelAt = some k` means the scope token becomes cancelled
before the check performed for the k-th received item (0-based), so
`check_async` raises there; each earlier item is yielded, counted, and
buffered when `bufferKeep` is set.  Returns (was cancelled, count, buffer). -/
def streamGo {α : Type} (bufferKeep : Bool) :
    List α → Option Nat → Nat → List α → Bool × Nat × List α
  | [], _, count, buf => (false, count, buf)
  | _ :: _, some 0, count, buf => (true, count, buf)
  | x :: rest, cancelAt, count, buf =>
      let buf' := if bufferKeep then trimBuf (buf ++ [x]) else buf
      streamGo bufferKeep rest (cancelAt.map (· - 1)) (count + 1) buf'

/-- `Cancellable.stream` (cancellable.py lines 499-564): run the loop, then
write `partial_result` per exit path: on cancellation `{count, buffer}`
(no `completed` key) and re-raise; on another exception `{count, buffer,
completed: False}` and re-raise; on normal exhaustion `{count, buffer,
completed: True}` but only when `buffer_partial` is set or `count > 0`. -/
def Cancellable.stream {α : Type} (items : List α) (ending : StreamEnding)
    (cancelAt : Option Nat) (bufferKeep : Bool) :
    StreamExit × Nat × Option (PartRes α) :=
  let r := streamGo bufferKeep items cancelAt 0 []
  let count := r.2.1
  let buf : Option (List α) := if bufferKeep then some r.2.2 else none
  if r.1 then
    (.cancelledExit, count, some ⟨count, buf, none⟩)
  else
    match ending with
    | .err e => (.failedExit e, count, some ⟨count, buf, some false⟩)
    | .exhausted =>
        if bufferKeep || count > 0 then
          (.completedExit, count, some ⟨count, buf, some true⟩)
        else
          (.completedExit, count, none)

/-- A scope with its token and current children, the part of `Cancellable`
state that `Cancellable.cancel` acts on (cancellable.py lines 624-660).
`entered` records whether the scope has run `__aenter__` under its parent:
an entered child linked its token to the parent's token (cancellable.py
lines 279-281), registering an `on_linked_cancel` callback on the parent
token (token.py lines 199-232, `preserve_reason` left False), so a
transition of the parent token also cancels the entered child's token. -/
inductive SScope where
  | mk (id : String) (entered : Bool) (token : TokenState) (children : List SScope)

/-- The operation id of a scope. -/
def SScope.id : SScope → String
  | .mk i _ _ _ => i

/-- Whether the scope was entered under its parent, i.e. its token is
linked to the parent's token. -/
def SScope.entered : SScope → Bool
  | .mk _ e _ _ => e

/-- The token owned by a scope. -/
def SScope.token : SScope → TokenState
  | .mk _ _ t _ => t

/-- The current children of a scope. -/
def SScope.children : SScope → List SScope
  | .mk _ _ _ cs => cs

mutual

/-- `Cancellable.cancel` (cancellable.py lines 624-660): first
`self._token.cancel(reason, message)`.  If the token transitions, the
`on_linked_cancel` callbacks that entered children registered on it run
inside that call (token.py lines 95-108), cancelling their tokens with
PARENT and `"Linked token {token_id[:8]} was cancelled"` and cascading into
their own entered children; if the token was already cancelled no callback
runs.  Then, when `propagate_to_children`, every current child is cancelled
with PARENT and `"Parent operation {id[:8]} cancelled"`, itself
propagating: after a transition an entered child takes the fused
link-then-propagate path `cancelLinked`, every other child the plain
recursive cancel. -/
def Cancellable.cancel (now : Nat) (r : CancellationReason)
    (m : Option String) (propagate_to_children : Bool) : SScope → SScope
  | .mk i e tok children =>
      if tok.is_cancelled then
        if propagate_to_children then
          .mk i e tok
            (cancelChildren now ("Parent operation " ++ i.take 8 ++ " cancelled") children)
        else .mk i e tok children
      else
        if propagate_to_children then
          .mk i e (CancellationToken.cancel tok r m now).2.1
            (cancelLinkedChildren now (tok.id.take 8)
              ("Parent operation " ++ i.take 8 ++ " cancelled") children)
        else
          .mk i e (CancellationToken.cancel tok r m now).2.1
            (linkFireChildren now (tok.id.take 8) children)

/-- The `on_linked_cancel` callback's effect on an entered child (token.py
lines 210-224 with `preserve_reason = False`): cancel the child's token with
PARENT and `"Linked token {ptok8} was cancelled"`; on a transition the
child token's own registered callbacks run, i.e. the link callbacks of its
own entered children; on an already-cancelled token nothing happens. -/
def linkFire (now : Nat) (ptok8 : String) : SScope → SScope
  | .mk i e tok children =>
      if tok.is_cancelled then .mk i e tok children
      else
        .mk i e
          (CancellationToken.cancel tok .parent
            (some ("Linked token " ++ ptok8 ++ " was cancelled")) now).2.1
          (linkFireChildren now (tok.id.take 8) children)

/-- An entered child that receives the link callback and then the propagate
call `cancel(PARENT, "Parent operation {parent_id[:8]} cancelled", True)`:
with an uncancelled token the link callback transitions it first, so the
propagate call's own token cancel is a no-op and only its recursion into
the children acts; with an already-cancelled token both token cancels are
no-ops and only the propagate recursion acts. -/
def cancelLinked (now : Nat) (ptok8 : String) : SScope → SScope
  | .mk i e tok children =>
      if tok.is_cancelled then
        .mk i e tok
          (cancelChildren now ("Parent operation " ++ i.take 8 ++ " cancelled") children)
      else
        .mk i e
          (CancellationToken.cancel tok .parent
            (some ("Linked token " ++ ptok8 ++ " was cancelled")) now).2.1
          (cancelLinkedChildren now (tok.id.take 8)
            ("Parent operation " ++ i.take 8 ++ " cancelled") children)

/-- The propagate loop over children when the parent's token did not
transition (no link callback ran). -/
def cancelChildren (now : Nat) (msg : String) : List SScope → List SScope
  | [] => []
  | c :: cs =>
      Cancellable.cancel now .parent (some msg) true c :: cancelChildren now msg cs

/-- The children of a scope whose token just transitioned, under a
propagate call: entered children take the link-then-propagate path,
the rest the plain propagate path. -/
def cancelLinkedChildren (now : Nat) (ptok8 : String) (msg : String) :
    List SScope → List SScope
  | [] => []
  | c :: cs =>
      (if c.entered then cancelLinked now ptok8 c
       else Cancellable.cancel now .parent (some msg) true c)
        :: cancelLinkedChildren now ptok8 msg cs

/-- The children of a scope whose token just transitioned with no propagate
call: only the entered children's link callbacks run. -/
def linkFireChildren (now : Nat) (ptok8 : String) : List SScope → List SScope
  | [] => []
  | c :: cs =>
      (if c.entered then linkFire now ptok8 c else c)
        :: linkFireChildren now ptok8 cs

end

/-- A cancellation source as `Cancellable.__aexit__` sees it: the
`triggered` flag and the source's own reason. -/
structure SourceInfo where
  triggered : Bool
  reason : CancellationReason
deriving DecidableEq, Repr

/-- The first source whose `triggered` flag is set (the probe loop in
cancellable.py lines 384-393 breaks at the first hit). -/
def firstTriggered (ss : List SourceInfo) : Option CancellationReason :=
  match ss.find? (fun s => s.triggered) with
  | some s => some s.reason
  | none => none

/-- The state `Cancellable.__aexit__` consults when deriving the terminal
status (cancellable.py lines 336-452): the context's already-recorded cancel
reason/message, the scope token, the anyio cancel scope (presence,
`cancel_called`, `deadline`), the current time and the source list. -/
structure ExitState where
  cancel_reason : Option CancellationReason
  cancel_message : Option String
  token_cancelled : Bool
  token_reason : Option CancellationReason
  token_message : Option String
  scope_present : Bool
  cancel_called : Bool
  deadline : Option Int
  now : Int
  sources : List SourceInfo
deriving DecidableEq, Repr

/-- The exception with which the scope body exits: none, the host
cancellation exception, one of the library's own `CancellationError`
exceptions, or any other exception (carrying its `str`). -/
inductive ExitExc where
  | noExc
  | cancelledExc
  | cancellationErrorExc (reason : CancellationReason) (message : String)
  | failureExc (msg : String)
deriving DecidableEq, Repr

/-- The terminal record produced by `__aexit__`: status, cancel
reason/message, and error string. -/
structure ExitResult where
  status : OperationStatus
  cancel_reason : Option CancellationReason
  cancel_message : Option String
  error : Option String
deriving DecidableEq, Repr

/-- `Cancellable.__aexit__` status derivation (cancellable.py lines
357-420), as a function of the exit state and the exiting exception. -/
def Cancellable.aexit (s : ExitState) : ExitExc → ExitResult
  | .cancelledExc =>
      let rm : Option CancellationReason × Option String :=
        match s.cancel_reason with
        | some r => (some r, s.cancel_message)
        | none =>
            if s.token_cancelled then (s.token_reason, s.token_message)
            else if s.scope_present && s.cancel_called then
              match s.deadline with
              | some d =>
                  if s.now ≥ d then (some .timeout, some "Operation timed out")
                  else
                    match firstTriggered s.sources with
                    | some r => (some r, s.cancel_message)
                    | none => (some .manual, s.cancel_message)
              | none =>
                  match firstTriggered s.sources with
                  | some r => (some r, s.cancel_message)
                  | none => (some .manual, s.cancel_message)
            else (some .manual, s.cancel_message)
      { status := .cancelled, cancel_reason := rm.1, cancel_message := rm.2,
        error := none }
  | .cancellationErrorExc r m =>
      { status := .cancelled, cancel_reason := some r, cancel_message := some m,
        error := none }
  | .failureExc msg =>
      { status := .failed, cancel_reason := s.cancel_reason,
        cancel_message := s.cancel_message, error := some msg }
  | .noExc =>
      { status := .completed, cancel_reason := s.cancel_reason,
        cancel_message := s.cancel_message, error := none }

/-- The cancel-reason priority chain exactly as the claim words it: a reason
already set by a source; else the token's reason if the token is cancelled;
else TIMEOUT when the deadline is set and now is at or past it; else the
reason of the first triggered source; else MANUAL. -/
def claimCancelReason (s : ExitState) : Option CancellationReason :=
  match s.cancel_reason with
  | some r => some r
  | none =>
      if s.token_cancelled then s.token_reason
      else if (match s.deadline with | some d => decide (s.now ≥ d) | none => false) then
        some .timeout
      else
        match firstTriggered s.sources with
        | some r => some r
        | none => some .manual

/-- An `OperationContext` snapshot as the registry stores it: the fields
`cleanup_completed` and the history consult. -/
structure OpContext where
  id : String
  status : OperationStatus
  end_time : Option Int
deriving DecidableEq, Repr

/-- `OperationContext.is_terminal`: COMPLETED, FAILED or CANCELLED. -/
def OpContext.is_terminal (c : OpContext) : Bool :=
  c.status == .completed || c.status == .failed || c.status == .cancelled

/-- `OperationRegistry` state: the live table (association list keyed by
operation id), the bounded history, and the history cap (default 1000). -/
structure RegistryState where
  operations : List (String × OpContext)
  history : List OpContext
  history_limit : Nat
deriving DecidableEq, Repr

/-- The freshly initialized registry (registry.py lines 36-47). -/
def initRegistry : RegistryState :=
  { operations := [], history := [], history_limit := 1000 }

/-- History trimming (registry.py lines 91-92): keep the last
`history_limit` entries (`history[-limit:]`) when over the cap. -/
def trimHistory (limit : Nat) (h : List OpContext) : List OpContext :=
  if h.length > limit then h.drop (h.length - limit) else h

/-- `OperationRegistry.register` (registry.py lines 61-76): store the scope
under its context id (dict assignment: replace an existing entry, else
append). -/
def OperationRegistry.register (s : RegistryState) (ctx : OpContext) :
    RegistryState :=
  { s with operations :=
      if s.operations.any (fun p => p.1 == ctx.id) then
        s.operations.map (fun p => if p.1 == ctx.id then (ctx.id, ctx) else p)
      else s.operations ++ [(ctx.id, ctx)] }

/-- `OperationRegistry.unregister` (registry.py lines 78-99): pop the id
from the live table; if present, append a deep snapshot of its context to
the history and trim to the cap.  One atomic step under the lock. -/
def OperationRegistry.unregister (s : RegistryState) (i : String) :
    RegistryState :=
  match s.operations.find? (fun p => p.1 == i) with
  | some p =>
      { s with operations := s.operations.filter (fun q => q.1 != i),
               history := trimHistory s.history_limit (s.history ++ [p.2]) }
  | none => s

/-- The removal predicate of `OperationRegistry.cleanup_completed`
(registry.py lines 270-287): terminal, not FAILED when `keep_failed`, and
old enough when `older_than` is given and `end_time` recorded. -/
def cleanupRemoves (keep_failed : Bool) (older_than : Option Int) (now : Int)
    (ctx : OpContext) : Bool :=
  if !ctx.is_terminal then false
  else if keep_failed && ctx.status == .failed then false
  else
    match older_than, ctx.end_time with
    | some d, some e => decide (now - e ≥ d)
    | _, _ => true

/-- `OperationRegistry.cleanup_completed` (registry.py lines 251-304): move
every matching live entry's snapshot into the history, then trim once. -/
def OperationRegistry.cleanup_completed (s : RegistryState)
    (older_than : Option Int) (keep_failed : Bool) (now : Int) : RegistryState :=
  let removed := s.operations.filter (fun p => cleanupRemoves keep_failed older_than now p.2)
  { s with
      operations := s.operations.filter (fun p => !cleanupRemoves keep_failed older_than now p.2),
      history := trimHistory s.history_limit (s.history ++ removed.map (fun p => p.2)) }

/-- A registry operation, for stating invariant preservation over sequences. -/
inductive RegOp where
  | registerOp (ctx : OpContext)
  | unregisterOp (i : String)
  | cleanupOp (older_than : Option Int) (keep_failed : Bool) (now : Int)
deriving DecidableEq, Repr

/-- Apply one registry operation. -/
def regApply (s : RegistryState) : RegOp → RegistryState
  | .registerOp ctx => OperationRegistry.register s ctx
  | .unregisterOp i => OperationRegistry.unregister s i
  | .cleanupOp ot kf now => OperationRegistry.cleanup_completed s ot kf now

/-- Apply a sequence of registry operations. -/
def regRun (s : RegistryState) : List RegOp → RegistryState
  | [] => s
  | op :: ops => regRun (regApply s op) ops

/-- Live table and history share no operation id. -/
def regDisjoint (s : RegistryState) : Bool :=
  s.operations.all (fun p => s.history.all (fun c => p.1 != c.id))

/-- A register uses an id not currently in the history (ids are fresh uuids
in the source); other operations are unrestricted. -/
def regFresh (s : RegistryState) : RegOp → Prop
  | .registerOp ctx => ∀ c ∈ s.history, ctx.id ≠ c.id
  | _ => True

/-- A sequence of registry operations each of which registers only
history-fresh ids at its point of application. -/
inductive RegValid : RegistryState → List RegOp → Prop where
  | nil (s : RegistryState) : RegValid s []
  | cons (s : RegistryState) (op : RegOp) (ops : List RegOp) :
      regFresh s op → RegValid (regApply s op) ops → RegValid s (op :: ops)

/-- `AnyioBridge` state (anyio_bridge.py): started flag, the thread-locked
pre-start staging deque, the in-loop queue (the memory object stream,
capacity 1000), and the callables dropped on overflow.  Callables are
identified by numeric ids. -/
structure Bridge where
  started : Bool
  pending : List Nat
  queue : List Nat
  dropped : List Nat
deriving DecidableEq, Repr

/-- The capacity of the bridge's memory object stream
(`create_memory_object_stream(1000)`). -/
def bridgeCapacity : Nat := 1000

/-- A bridge before any call (anyio_bridge.py lines 43-50). -/
def initBridge : Bridge :=
  { started := false, pending := [], queue := [], dropped := [] }

/-- `AnyioBridge.call_soon_threadsafe` (anyio_bridge.py lines 157-191): not
started → append to the staging deque; started → `send_nowait`, which
appends when the stream has room and otherwise drops the callable with a
warning. -/
def AnyioBridge.call_soon_threadsafe (b : Bridge) (c : Nat) : Bridge :=
  if !b.started then { b with pending := b.pending ++ [c] }
  else if b.queue.length < bridgeCapacity then { b with queue := b.queue ++ [c] }
  else { b with dropped := b.dropped ++ [c] }

/-- The pre-start drain loop inside `AnyioBridge.start` (anyio_bridge.py
lines 94-103): pop staged callables in FIFO order and `send_nowait` each,
dropping on `WouldBlock`. -/
def bridgeDrain : List Nat → List Nat → List Nat → List Nat × List Nat
  | [], q, d => (q, d)
  | c :: rest, q, d =>
      if q.length < bridgeCapacity then bridgeDrain rest (q ++ [c]) d
      else bridgeDrain rest q (d ++ [c])

/-- `AnyioBridge.start` (anyio_bridge.py lines 68-109): idempotent; on first
call create the (empty) stream, drain the staging deque into it in
submission order, and mark started. -/
def AnyioBridge.start (b : Bridge) : Bridge :=
  if b.started then b
  else
    let qd := bridgeDrain b.pending [] b.dropped
    { started := true, pending := [], queue := qd.1, dropped := qd.2 }

/-- A bridge operation: a thread submitting a callable, or `start` running. -/
inductive BridgeOp where
  | submitOp (c : Nat)
  | startOp
deriving DecidableEq, Repr

/-- Apply one bridge operation. -/
def bridgeStep (b : Bridge) : BridgeOp → Bridge
  | .submitOp c => AnyioBridge.call_soon_threadsafe b c
  | .startOp => AnyioBridge.start b

/-- Apply a sequence of bridge operations. -/
def bridgeRun (b : Bridge) : List BridgeOp → Bridge
  | [] => b
  | op :: ops => bridgeRun (bridgeStep b op) ops

/-- The fields of a constructed `TimeoutSource` (timeout.py lines 22-39). -/
structure TimeoutSourceState where
  timeout : ℚ
  triggered : Bool
deriving DecidableEq, Repr

/-- `TimeoutSource.__init__` (timeout.py lines 22-39): reject a non-positive
timeout with ValueError before anything is armed. -/
def TimeoutSource.init (timeout : ℚ) : Except String TimeoutSourceState :=
  if timeout ≤ 0 then .error "Timeout must be positive"
  else .ok { timeout := timeout, triggered := false }

/-- The fields of a constructed `ConditionSource` (condition.py lines 24-53). -/
structure ConditionSourceState where
  check_interval : ℚ
  triggered : Bool
deriving DecidableEq, Repr

/-- `ConditionSource.__init__` (condition.py lines 24-53): reject a
non-positive check interval with ValueError before monitoring can start. -/
def ConditionSource.init (check_interval : ℚ) :
    Except String ConditionSourceState :=
  if check_interval ≤ 0 then .error "Check interval must be positive"
  else .ok { check_interval := check_interval, triggered := false }

/-- The source list of a scope built by a factory. -/
structure ScopeSources where
  sources : List TimeoutSourceState
deriving DecidableEq, Repr

/-- `Cancellable.with_timeout` (cancellable.py lines 97-118): constructs a
`TimeoutSource(timeout)` at scope-construction time, so a non-positive
timeout raises there. -/
def Cancellable.with_timeout (timeout : ℚ) : Except String ScopeSources :=
  (TimeoutSource.init timeout).map (fun src => { sources := [src] })

/-- The registration id extracted from a token operation, if any. -/
def regId : TokenOp → Option Nat
  | .registerOp c => some c
  | _ => none

/-- Every live-table entry is keyed by its context's id (register always
stores `self._operations[operation.context.id] = operation`). -/
def regKeysMatch (s : RegistryState) : Prop :=
  ∀ p ∈ s.operations, p.1 = p.2.id

/-- The registry's structural invariant: live and history ids are disjoint,
live keys are unique, and each entry is keyed by its own id. -/
def RegInv (s : RegistryState) : Prop :=
  regDisjoint s = true ∧ (s.operations.map Prod.fst).Nodup ∧ regKeysMatch s

/-! ### Helper lemmas about the token model -/

/-- `cancel` never changes the token's id. -/
theorem cancel_id (s : TokenState) (r : CancellationReason) (m : Option String)
    (t : Nat) : ((CancellationToken.cancel s r m t).2.1).id = s.id := by
  unfold CancellationToken.cancel
  split <;> rfl

/-- After any `cancel` call the token is cancelled or was untouched. -/
theorem cancel_state_cancelled (s : TokenState) (r : CancellationReason)
    (m : Option String) (t : Nat) (h : s.is_cancelled = false) :
    ((CancellationToken.cancel s r m t).2.1).is_cancelled = true := by
  unfold CancellationToken.cancel
  rw [h]
  rfl

/-- Running only registrations appends the ids to the callback list and
leaves every other field unchanged. -/
theorem tokenRun_registers (ids : List Nat) :
    ∀ s : TokenState, (tokenRun s (ids.map TokenOp.registerOp)).1 =
      { s with callbacks := s.callbacks ++ ids } := by
  induction ids with
  | nil => intro s; simp [tokenRun]
  | cons c rest ih =>
      intro s
      have hstep : (tokenStep s (TokenOp.registerOp c)).1 =
          { s with callbacks := s.callbacks ++ [c] } := by
        simp only [tokenStep, CancellationToken.register_callback]
        split <;> rfl
      simp only [List.map_cons, tokenRun, hstep, ih]
      simp

/-- From a cancelled token, a step leaves the token cancelled and emits an
invocation exactly for a newly registered callback. -/
theorem tokenStep_cancelled (s : TokenState) (op : TokenOp)
    (h : s.is_cancelled = true) :
    (tokenStep s op).1.is_cancelled = true ∧
      (tokenStep s op).2 = (regId op).toList := by
  cases op with
  | cancelOp r m t =>
      simp [tokenStep, CancellationToken.cancel, h, regId]
  | registerOp c =>
      simp [tokenStep, CancellationToken.register_callback, h, regId]

/-- From a cancelled token, a run emits exactly the invocations of the
callbacks registered during the run, in order. -/
theorem tokenRun_cancelled (ops : List TokenOp) :
    ∀ s : TokenState, s.is_cancelled = true →
      (tokenRun s ops).1.is_cancelled = true ∧
        (tokenRun s ops).2 = ops.filterMap regId := by
  induction ops with
  | nil => intro s h; simpa [tokenRun]
  | cons op rest ih =>
      intro s h
      obtain ⟨h1, h2⟩ := tokenStep_cancelled s op h
      obtain ⟨h3, h4⟩ := ih (tokenStep s op).1 h1
      cases op with
      | cancelOp r m t =>
          constructor
          · simpa [tokenRun] using h3
          · simp [tokenRun, h2, h4, List.filterMap_cons, regId]
      | registerOp c =>
          constructor
          · simpa [tokenRun] using h3
          · simp [tokenRun, h2, h4, List.filterMap_cons, regId]

/-- C3: for every token, calling `cancel` any number of times is equivalent
to calling it once: the first call on an uncancelled token returns True,
sets the cancelled flag, reason, message and timestamp, and invokes exactly
the listeners registered at that moment in registration order (for a token
whose listeners were registered one by one, the invocation list is exactly
the registration list); a call on an already-cancelled token returns False,
changes nothing and invokes nothing, and in particular any second call after
a first one returns False and changes nothing. -/
theorem C3_cancel_idempotent (s : TokenState) (r r' : CancellationReason)
    (m m' : Option String) (t t' : Nat) (i : String) (ids : List Nat) :
    (s.is_cancelled = false →
      CancellationToken.cancel s r m t =
        (true, { s with is_cancelled := true, reason := some r, message := m,
                        cancelled_at := some t }, s.callbacks)) ∧
    (s.is_cancelled = true →
      CancellationToken.cancel s r m t = (false, s, [])) ∧
    (CancellationToken.cancel (CancellationToken.cancel s r m t).2.1 r' m' t' =
      (false, (CancellationToken.cancel s r m t).2.1, [])) ∧
    ((CancellationToken.cancel
        (tokenRun (freshToken i) (ids.map TokenOp.registerOp)).1 r m t).2.2 = ids) := by
  refine ⟨fun h => ?_, fun h => ?_, ?_, ?_⟩
  · simp [CancellationToken.cancel, h]
  · simp [CancellationToken.cancel, h]
  · by_cases h : s.is_cancelled = true
    · simp [CancellationToken.cancel, h]
    · simp only [Bool.not_eq_true] at h
      have h2 := cancel_state_cancelled s r m t h
      simp [CancellationToken.cancel, h, h2]
  · rw [tokenRun_registers ids (freshToken i)]
    simp [CancellationToken.cancel, freshToken]

/-- Witness for C3 at a concrete token with two listeners. -/
theorem C3_cancel_idempotent_witness :
    CancellationToken.cancel
        (tokenRun (freshToken "tok") ([4, 7].map TokenOp.registerOp)).1
        .manual (some "stop") 3 =
      (true, { id := "tok", is_cancelled := true, reason := some .manual,
               message := some "stop", cancelled_at := some 3,
               callbacks := [4, 7] }, [4, 7]) := by
  have h := C3_cancel_idempotent
    (tokenRun (freshToken "tok") ([4, 7].map TokenOp.registerOp)).1
    .manual .manual (some "stop") (some "stop") 3 3 "tok" [4, 7]
  have hstate : (tokenRun (freshToken "tok") ([4, 7].map TokenOp.registerOp)).1 =
      { id := "tok", is_cancelled := false, reason := none, message := none,
        cancelled_at := none, callbacks := [4, 7] } := by decide
  have h1 := h.1 (by rw [hstate])
  rw [hstate] at h1 ⊢
  simpa using h1

/-- C7: a listener registered on an already-cancelled token is invoked
exactly once, immediately within the registration call itself, and is never
invoked again by any later sequence of token operations that does not
re-register it. -/
theorem C7_late_listener_once (s : TokenState) (c : Nat) (ops : List TokenOp)
    (hc : s.is_cancelled = true)
    (hops : ∀ op ∈ ops, op ≠ TokenOp.registerOp c) :
    (CancellationToken.register_callback s c).2 = [c] ∧
    (CancellationToken.register_callback s c).1.is_cancelled = true ∧
    List.count c (tokenRun (CancellationToken.register_callback s c).1 ops).2 = 0 := by
  have hstate : (CancellationToken.register_callback s c).1.is_cancelled = true := by
    simp only [CancellationToken.register_callback]
    split <;> simpa
  refine ⟨?_, hstate, ?_⟩
  · simp [CancellationToken.register_callback, hc]
  · obtain ⟨-, hev⟩ := tokenRun_cancelled ops _ hstate
    rw [hev, List.count_eq_zero]
    intro hmem
    obtain ⟨op, hop, hid⟩ := List.mem_filterMap.mp hmem
    cases op with
    | cancelOp r m t => simp [regId] at hid
    | registerOp d =>
        simp only [regId, Option.some.injEq] at hid
        exact hops _ hop (by rw [hid])

/-- Witness for C7: a late listener on a cancelled token, followed by a
further cancel call and another registration. -/
theorem C7_late_listener_once_witness :
    (CancellationToken.register_callback
        { id := "t", is_cancelled := true, reason := some .manual,
          message := none, cancelled_at := some 0, callbacks := [] } 5).2 = [5] ∧
    List.count 5 (tokenRun
        (CancellationToken.register_callback
          { id := "t", is_cancelled := true, reason := some .manual,
            message := none, cancelled_at := some 0, callbacks := [] } 5).1
        [TokenOp.cancelOp .manual none 9, TokenOp.registerOp 8]).2 = 0 := by
  have h := C7_late_listener_once
    { id := "t", is_cancelled := true, reason := some .manual,
      message := none, cancelled_at := some 0, callbacks := [] } 5
    [TokenOp.cancelOp .manual none 9, TokenOp.registerOp 8]
    (by decide) (by decide)
  exact ⟨h.1, h.2.2⟩

/-- C10: token equality and hashing depend only on the id: two tokens are
equal exactly when their ids are equal, a token never equals a non-token,
tokens with equal ids hash equally, and both equality and hash are unchanged
by a `cancel` transition on either side. -/
theorem C10_token_eq_id (a b : TokenState) (hf : String → Nat)
    (r : CancellationReason) (m : Option String) (t : Nat) (v : PyValue) :
    (token_eq a (.token b) = true ↔ a.id = b.id) ∧
    (token_eq a .other = false) ∧
    (a.id = b.id → token_hash hf a = token_hash hf b) ∧
    (token_eq (CancellationToken.cancel a r m t).2.1 v = token_eq a v) ∧
    (token_eq b (.token (CancellationToken.cancel a r m t).2.1) =
      token_eq b (.token a)) ∧
    (token_hash hf (CancellationToken.cancel a r m t).2.1 = token_hash hf a) := by
  have hid := cancel_id a r m t
  refine ⟨?_, rfl, ?_, ?_, ?_, ?_⟩
  · simp [token_eq]
  · intro h; simp [token_hash, h]
  · cases v with
    | token u => simp [token_eq, hid]
    | other => rfl
  · simp [token_eq, hid]
  · simp [token_hash, hid]

/-- Witness for C10: two distinct tokens sharing an id, one cancelled. -/
theorem C10_token_eq_id_witness :
    token_eq (freshToken "a")
        (.token (CancellationToken.cancel (freshToken "a") .timeout none 2).2.1) = true ∧
    token_eq (freshToken "a") .other = false ∧
    token_hash String.length (freshToken "a") =
      token_hash String.length (CancellationToken.cancel (freshToken "a") .timeout none 2).2.1 := by
  have h := C10_token_eq_id (freshToken "a") (freshToken "a") String.length
    .timeout none 2 PyValue.other
  refine ⟨?_, h.2.1, (h.2.2.2.2.2).symm⟩
  rw [h.2.2.2.2.1]
  exact (h.1).mpr rfl

/-! ### Helper lemmas about the stream loop -/

/-- When the token fires before the iterator is exhausted, the loop stops at
the check with exactly the items before the cancellation point yielded. -/
theorem streamGo_cancel {α : Type} (b : Bool) :
    ∀ (xs : List α) (k c : Nat) (buf : List α), k < xs.length →
      (streamGo b xs (some k) c buf).1 = true ∧
        (streamGo b xs (some k) c buf).2.1 = c + k := by
  intro xs
  induction xs with
  | nil => intro k c buf h; simp at h
  | cons x rest ih =>
      intro k c buf h
      cases k with
      | zero => simp [streamGo]
      | succ j =>
          have hj : j < rest.length := by
            simpa [Nat.succ_lt_succ_iff] using h
          obtain ⟨h1, h2⟩ := ih j (c + 1)
            (if b then trimBuf (buf ++ [x]) else buf) hj
          refine ⟨?_, ?_⟩
          · simpa [streamGo] using h1
          · simp only [streamGo]
            rw [show (some (j + 1)).map (· - 1) = some j by simp]
            rw [h2]
            omega

/-- When the token never fires during the iteration, the loop consumes the
whole iterator without raising. -/
theorem streamGo_noCancel {α : Type} (b : Bool) :
    ∀ (xs : List α) (cancelAt : Option Nat) (c : Nat) (buf : List α),
      (∀ j, cancelAt = some j → xs.length ≤ j) →
      (streamGo b xs cancelAt c buf).1 = false ∧
        (streamGo b xs cancelAt c buf).2.1 = c + xs.length := by
  intro xs
  induction xs with
  | nil => intro cancelAt c buf h; simp [streamGo]
  | cons x rest ih =>
      intro cancelAt c buf h
      cases cancelAt with
      | none =>
          obtain ⟨h1, h2⟩ := ih none (c + 1)
            (if b then trimBuf (buf ++ [x]) else buf) (by intro j hj; cases hj)
          refine ⟨by simpa [streamGo] using h1, ?_⟩
          simp only [streamGo]
          rw [show (none : Option Nat).map (· - 1) = none from rfl, h2]
          simp; omega
      | some k =>
          cases k with
          | zero =>
              have := h 0 rfl
              simp at this
          | succ j =>
              have hj : rest.length ≤ j := by
                have := h (j + 1) rfl
                simpa [Nat.succ_le_succ_iff] using this
              obtain ⟨h1, h2⟩ := ih (some j) (c + 1)
                (if b then trimBuf (buf ++ [x]) else buf)
                (by intro j' hj'; cases hj'; exact hj)
              refine ⟨?_, ?_⟩
              · simpa [streamGo] using h1
              · simp only [streamGo]
                rw [show (some (j + 1)).map (· - 1) = some j by simp, h2]
                simp; omega

/-- C1 counterexample: iterating one item with the token cancelled before
the first check ends by cancellation, and the `partial_result` the wrapper
writes has no `completed` field at all (so in particular it is not the
record with `completed = false` the claim requires); moreover, a normally
exhausted empty iteration with `buffer_partial = False` writes no
`partial_result` whatsoever. -/
theorem C1_counterexample :
    Cancellable.stream ([0] : List Nat) .exhausted (some 0) true =
      (.cancelledExit, 0, some ⟨0, some [], none⟩) ∧
    (Cancellable.stream ([0] : List Nat) .exhausted (some 0) true).2.2 ≠
      some ⟨0, some [], some false⟩ ∧
    Cancellable.stream ([] : List Nat) .exhausted none false =
      (.completedExit, 0, none) := by
  refine ⟨by decide, by decide, by decide⟩

/-- C1 (amended): whenever the wrapped iteration ends, the recorded count
equals the number of items actually yielded; on cancellation a
`partial_result` is written whose `count` is the yield count but which has
no `completed` field; on an iterator error a `partial_result` with
`completed = False` is written; on normal exhaustion a `partial_result` with
`completed = True` is written exactly when buffering is enabled or at least
one item was yielded. -/
theorem C1_stream_partial_record {α : Type} (items : List α)
    (ending : StreamEnding) (k : Nat) (cancelAt : Option Nat)
    (bufferKeep : Bool) (e : String) :
    (k < items.length →
      (Cancellable.stream items ending (some k) bufferKeep).1 = .cancelledExit ∧
      (Cancellable.stream items ending (some k) bufferKeep).2.1 = k ∧
      ((Cancellable.stream items ending (some k) bufferKeep).2.2.map PartRes.count)
        = some k ∧
      ((Cancellable.stream items ending (some k) bufferKeep).2.2.map PartRes.completed)
        = some none) ∧
    ((∀ j, cancelAt = some j → items.length ≤ j) →
      ((Cancellable.stream items (.err e) cancelAt bufferKeep).1 = .failedExit e ∧
        (Cancellable.stream items (.err e) cancelAt bufferKeep).2.1 = items.length ∧
        ((Cancellable.stream items (.err e) cancelAt bufferKeep).2.2.map PartRes.count)
          = some items.length ∧
        ((Cancellable.stream items (.err e) cancelAt bufferKeep).2.2.map PartRes.completed)
          = some (some false)) ∧
      ((Cancellable.stream items .exhausted cancelAt bufferKeep).1 = .completedExit ∧
        (Cancellable.stream items .exhausted cancelAt bufferKeep).2.1 = items.length ∧
        ((bufferKeep = true ∨ 0 < items.length) →
          ((Cancellable.stream items .exhausted cancelAt bufferKeep).2.2.map PartRes.count)
            = some items.length ∧
          ((Cancellable.stream items .exhausted cancelAt bufferKeep).2.2.map PartRes.completed)
            = some (some true)) ∧
        (bufferKeep = false → items.length = 0 →
          (Cancellable.stream items .exhausted cancelAt bufferKeep).2.2 = none))) := by
  constructor
  · intro hk
    obtain ⟨h1, h2⟩ := streamGo_cancel bufferKeep items k 0 [] hk
    simp only [Nat.zero_add] at h2
    simp [Cancellable.stream, h1, h2]
  · intro hnc
    obtain ⟨h1, h2⟩ := streamGo_noCancel bufferKeep items cancelAt 0 [] hnc
    simp only [Nat.zero_add] at h2
    refine ⟨⟨?_, ?_, ?_, ?_⟩, ?_, ?_, ?_, ?_⟩
    · simp [Cancellable.stream, h1, h2]
    · simp [Cancellable.stream, h1, h2]
    · simp [Cancellable.stream, h1, h2]
    · simp [Cancellable.stream, h1, h2]
    · simp only [Cancellable.stream, h1, Bool.false_eq_true, if_false]
      split <;> rfl
    · simp only [Cancellable.stream, h1, Bool.false_eq_true, if_false]
      split <;> simp [h2]
    · intro hcase
      rcases hcase with hb | hl
      · subst hb
        simp [Cancellable.stream, h1, h2]
      · simp [Cancellable.stream, h1, h2, hl]
    · intro hb hlen
      subst hb
      simp [Cancellable.stream, h1, h2, hlen]

/-- Witness for C1 (amended) on a three-item stream cancelled before the
third item, plus an error ending and a buffered normal ending. -/
theorem C1_stream_partial_record_witness :
    (Cancellable.stream ([10, 11, 12] : List Nat) .exhausted (some 2) true).2.1 = 2 ∧
    ((Cancellable.stream ([10, 11, 12] : List Nat) .exhausted (some 2) true).2.2.map
      PartRes.completed) = some none ∧
    ((Cancellable.stream ([10, 11, 12] : List Nat) (.err "boom") none true).2.2.map
      PartRes.completed) = some (some false) ∧
    ((Cancellable.stream ([10, 11, 12] : List Nat) .exhausted none true).2.2.map
      PartRes.completed) = some (some true) := by
  have h := C1_stream_partial_record ([10, 11, 12] : List Nat) .exhausted 2 none
    true "boom"
  have hk : 2 < ([10, 11, 12] : List Nat).length := by decide
  have hnc : ∀ j, (none : Option Nat) = some j → ([10, 11, 12] : List Nat).length ≤ j := by
    intro j hj; cases hj
  obtain ⟨hcancel, hrest⟩ := h
  obtain ⟨herr, hexh⟩ := hrest hnc
  exact ⟨(hcancel hk).2.1, (hcancel hk).2.2.2, herr.2.2.2,
    (hexh.2.2.1 (Or.inl rfl)).2⟩

/-- C2: on every scope exit the terminal status is COMPLETED, FAILED or
CANCELLED; a non-cancellation exception gives FAILED with its string
recorded; no exception gives COMPLETED; the host cancellation exception
gives CANCELLED with, for an exit whose cancel scope exists and was
cancelled, the cancel reason derived exactly in the claim's priority order
(already-set reason, then the cancelled token's reason and message, then
TIMEOUT on a passed deadline, then a triggered source's reason, then
MANUAL). -/
theorem C2_terminal_status (s : ExitState) (exc : ExitExc) (msg : String) :
    ((Cancellable.aexit s exc).status = .completed ∨
      (Cancellable.aexit s exc).status = .failed ∨
      (Cancellable.aexit s exc).status = .cancelled) ∧
    (Cancellable.aexit s (.failureExc msg) =
      { status := .failed, cancel_reason := s.cancel_reason,
        cancel_message := s.cancel_message, error := some msg }) ∧
    ((Cancellable.aexit s .noExc).status = .completed) ∧
    ((Cancellable.aexit s .cancelledExc).status = .cancelled) ∧
    (s.scope_present = true → s.cancel_called = true →
      (Cancellable.aexit s .cancelledExc).cancel_reason = claimCancelReason s) ∧
    (s.cancel_reason = none → s.token_cancelled = true →
      (Cancellable.aexit s .cancelledExc).cancel_message = s.token_message) := by
  refine ⟨?_, rfl, rfl, ?_, ?_, ?_⟩
  · cases exc <;> simp [Cancellable.aexit]
  · simp [Cancellable.aexit]
  · intro hs hc
    simp only [Cancellable.aexit, claimCancelReason, hs, hc]
    cases hcr : s.cancel_reason with
    | some r => rfl
    | none =>
        cases htc : s.token_cancelled with
        | true => simp
        | false =>
            simp only [Bool.false_eq_true, if_false, Bool.and_self, if_true]
            cases hd : s.deadline with
            | some d =>
                by_cases hnd : s.now ≥ d
                · simp [hnd]
                · simp only [hnd, if_false, decide_eq_true_eq]
                  cases hft : firstTriggered s.sources <;> simp [hft, hnd]
            | none =>
                cases hft : firstTriggered s.sources <;> simp [hft]
  · intro hcr htc
    simp [Cancellable.aexit, hcr, htc]

/-- Witness for C2: a cancelled exit with an armed, passed deadline and an
untriggered source resolves to TIMEOUT; a failure exit records the string. -/
theorem C2_terminal_status_witness :
    (Cancellable.aexit
        { cancel_reason := none, cancel_message := none,
          token_cancelled := false, token_reason := none, token_message := none,
          scope_present := true, cancel_called := true, deadline := some 5,
          now := 9, sources := [{ triggered := false, reason := .condition }] }
        .cancelledExc).cancel_reason = some .timeout ∧
    (Cancellable.aexit
        { cancel_reason := none, cancel_message := none,
          token_cancelled := false, token_reason := none, token_message := none,
          scope_present := true, cancel_called := true, deadline := some 5,
          now := 9, sources := [{ triggered := false, reason := .condition }] }
        (.failureExc "boom")).status = .failed := by
  have h := C2_terminal_status
    { cancel_reason := none, cancel_message := none,
      token_cancelled := false, token_reason := none, token_message := none,
      scope_present := true, cancel_called := true, deadline := some 5,
      now := 9, sources := [{ triggered := false, reason := .condition }] }
    .cancelledExc "boom"
  refine ⟨?_, by rw [h.2.1]⟩
  rw [h.2.2.2.2.1 rfl rfl]
  decide

/-- C4 counterexample: a component token cancelled with no message fires
into the combined token; the combined token adopts the component's reason
but its message becomes the generic "Linked token {id[:8]} was cancelled"
string, so it does not equal the firing component's (absent) message. -/
theorem C4_counterexample :
    on_linked_cancel true
        (CancellationToken.cancel (freshToken "comp-token") .timeout none 1).2.1
        (freshToken "comb") 2 =
      { id := "comb", is_cancelled := true, reason := some .timeout,
        message := some "Linked token comp-tok was cancelled",
        cancelled_at := some 2, callbacks := [] } ∧
    ((CancellationToken.cancel (freshToken "comp-token") .timeout none 1).2.1).message
      = none ∧
    (on_linked_cancel true
        (CancellationToken.cancel (freshToken "comp-token") .timeout none 1).2.1
        (freshToken "comb") 2).message ≠
      ((CancellationToken.cancel (freshToken "comp-token") .timeout none 1).2.1).message := by
  refine ⟨by decide, by decide, by decide⟩

/-- C4 (amended): a combined scope links its token on entry to every
transitively collected component token with `preserve_reason = True`; when a
component token that fired with reason `r` reaches the not-yet-cancelled
combined token, the combined token is cancelled with reason exactly `r`, and
with the component's message when that message is a non-empty string,
falling back to the generic linked-token message otherwise. -/
theorem C4_combined_preserves_reason (i : String) (a : CTree)
    (others : List CTree) (self linked : TokenState) (t : Nat)
    (r : CancellationReason) (hc : self.is_cancelled = false)
    (hr : linked.reason = some r) :
    Cancellable.enterLinks (Cancellable.combine i a others) =
      (collectTokens (a :: others) []).map (fun u => (u, true)) ∧
    (on_linked_cancel true linked self t).is_cancelled = true ∧
    (on_linked_cancel true linked self t).reason = some r ∧
    (on_linked_cancel true linked self t).message =
      some (pyOr linked.message
        ("Linked token " ++ linked.id.take 8 ++ " was cancelled")) ∧
    (∀ m, linked.message = some m → m ≠ "" →
      (on_linked_cancel true linked self t).message = some m) := by
  refine ⟨rfl, ?_, ?_, ?_, ?_⟩
  · simp [on_linked_cancel, hr, CancellationToken.cancel, hc]
  · simp [on_linked_cancel, hr, CancellationToken.cancel, hc]
  · simp [on_linked_cancel, hr, CancellationToken.cancel, hc]
  · intro m hm hne
    simp [on_linked_cancel, hr, CancellationToken.cancel, hc, pyOr, hm, hne]

/-- Witness for C4 (amended): a component cancelled with a real message
surfaces reason and message on the combined token. -/
theorem C4_combined_preserves_reason_witness :
    (on_linked_cancel true
        (CancellationToken.cancel (freshToken "cmp") .condition (some "cpu high") 1).2.1
        (freshToken "cb") 2).reason = some .condition ∧
    (on_linked_cancel true
        (CancellationToken.cancel (freshToken "cmp") .condition (some "cpu high") 1).2.1
        (freshToken "cb") 2).message = some "cpu high" := by
  have h := C4_combined_preserves_reason "cb2" (.mk (freshToken "cmp") [])
    [] (freshToken "cb")
    (CancellationToken.cancel (freshToken "cmp") .condition (some "cpu high") 1).2.1
    2 .condition (by decide) (by decide)
  refine ⟨h.2.2.1, ?_⟩
  exact h.2.2.2.2 "cpu high" (by decide) (by decide)

/-- The transitioned-parent child pass is a pointwise map: entered children
take the link-then-propagate path, the rest the plain propagate cancel. -/
theorem cancelLinkedChildren_map (now : Nat) (p8 msg : String) :
    ∀ cs : List SScope, cancelLinkedChildren now p8 msg cs =
      cs.map (fun c => if c.entered then cancelLinked now p8 c
        else Cancellable.cancel now .parent (some msg) true c) := by
  intro cs
  induction cs with
  | nil => rfl
  | cons c rest ih => simp [cancelLinkedChildren, ih]

/-- The link-only child pass is a pointwise map over the entered children. -/
theorem linkFireChildren_map (now : Nat) (p8 : String) :
    ∀ cs : List SScope, linkFireChildren now p8 cs =
      cs.map (fun c => if c.entered then linkFire now p8 c else c) := by
  intro cs
  induction cs with
  | nil => rfl
  | cons c rest ih => simp [linkFireChildren, ih]

/-- The plain propagate loop is a pointwise map of recursive cancels. -/
theorem cancelChildren_map (now : Nat) (msg : String) :
    ∀ cs : List SScope, cancelChildren now msg cs =
      cs.map (Cancellable.cancel now .parent (some msg) true) := by
  intro cs
  induction cs with
  | nil => rfl
  | cons c rest ih => simp [cancelChildren, ih]

/-- `linkFire` performs on the child's token exactly the `on_linked_cancel`
callback of the C4 embedding with `preserve_reason = False`. -/
theorem linkFire_matches_on_linked_cancel (now : Nat) (ptok : TokenState)
    (c : SScope) :
    (linkFire now (ptok.id.take 8) c).token =
      on_linked_cancel false ptok c.token now := by
  cases c with
  | mk i e tok cs =>
      by_cases h : tok.is_cancelled
      · simp [linkFire, on_linked_cancel, CancellationToken.cancel, h, SScope.token]
      · simp only [Bool.not_eq_true] at h
        simp [linkFire, on_linked_cancel, CancellationToken.cancel, h, SScope.token]

/-- Token effect of `linkFire` on an uncancelled child token. -/
theorem linkFire_token (now : Nat) (p8 : String) (c : SScope)
    (h : c.token.is_cancelled = false) :
    (linkFire now p8 c).token.is_cancelled = true ∧
    (linkFire now p8 c).token.reason = some .parent ∧
    (linkFire now p8 c).token.message =
      some ("Linked token " ++ p8 ++ " was cancelled") := by
  cases c with
  | mk i e tok cs =>
      simp only [SScope.token] at h
      simp [linkFire, CancellationToken.cancel, h, SScope.token]

/-- Token effect of `cancelLinked` on an uncancelled child token: the link
callback wins, so the token carries the linked-token message. -/
theorem cancelLinked_token (now : Nat) (p8 : String) (c : SScope)
    (h : c.token.is_cancelled = false) :
    (cancelLinked now p8 c).token.is_cancelled = true ∧
    (cancelLinked now p8 c).token.reason = some .parent ∧
    (cancelLinked now p8 c).token.message =
      some ("Linked token " ++ p8 ++ " was cancelled") := by
  cases c with
  | mk i e tok cs =>
      simp only [SScope.token] at h
      simp [cancelLinked, CancellationToken.cancel, h, SScope.token]

/-- Token effect of `Cancellable.cancel` on a scope whose token is
uncancelled: the token adopts the call's reason and message. -/
theorem cancel_token (now : Nat) (r : CancellationReason) (m : Option String)
    (p : Bool) (c : SScope) (h : c.token.is_cancelled = false) :
    (Cancellable.cancel now r m p c).token.is_cancelled = true ∧
    (Cancellable.cancel now r m p c).token.reason = some r ∧
    (Cancellable.cancel now r m p c).token.message = m := by
  cases c with
  | mk i e tok cs =>
      simp only [SScope.token] at h
      cases p <;>
        simp [Cancellable.cancel, CancellationToken.cancel, h, SScope.token]

/-- C5 counterexample: a parent with one entered child (the child's token is
linked to the parent's token).  `cancel` with `propagate_to_children = False`
still cancels the child's token — through the link callback invoked inside
the parent token's cancel — so the children's tokens are not left unchanged;
and with `propagate_to_children = True` the child's message is the linked-token
message `"Linked token {token_id[:8]} was cancelled"`, not the claimed
`"Parent operation {id[:8]} cancelled"`. -/
theorem C5_counterexample :
    ((Cancellable.cancel 7 .manual (some "stop") false
        (.mk "parent-op-id" false (freshToken "ptok-long-id")
          [.mk "child-op" true (freshToken "ctok") []])).children.map
      (fun c => c.token.is_cancelled)) = [true] ∧
    ((Cancellable.cancel 7 .manual (some "stop") false
        (.mk "parent-op-id" false (freshToken "ptok-long-id")
          [.mk "child-op" true (freshToken "ctok") []])).children.map
      (fun c => c.token.message)) = [some "Linked token ptok-lon was cancelled"] ∧
    ([SScope.mk "child-op" true (freshToken "ctok") []].map
      (fun c => c.token.is_cancelled)) = [false] ∧
    ((Cancellable.cancel 7 .manual (some "stop") true
        (.mk "parent-op-id" false (freshToken "ptok-long-id")
          [.mk "child-op" true (freshToken "ctok") []])).children.map
      (fun c => c.token.message)) = [some "Linked token ptok-lon was cancelled"] ∧
    some "Linked token ptok-lon was cancelled" ≠
      some ("Parent operation " ++ String.take "parent-op-id" 8 ++ " cancelled") := by
  refine ⟨?_, ?_, by decide, ?_, by decide⟩ <;>
    simp [Cancellable.cancel, linkFire, linkFireChildren, cancelLinked,
      cancelLinkedChildren, cancelChildren, CancellationToken.cancel,
      freshToken, SScope.entered, SScope.token, SScope.children] <;>
    decide

/-- C5 (amended): `cancel(reason, message, propagate_to_children)` on a
scope with an uncancelled token cancels the scope's own token with the
given reason and message; the link callbacks of entered children fire
inside that token cancel regardless of the propagate flag, cancelling each
entered child's uncancelled token with reason PARENT and the message
"Linked token {token_id[:8]} was cancelled" naming the parent's token;
with `propagate_to_children = True` every remaining (not entered) child is
cancelled with reason PARENT and the message
"Parent operation {id[:8]} cancelled" referencing the parent's id, while an
entered child keeps the linked-token message; with
`propagate_to_children = False` children that are not entered are left
completely unchanged. -/
theorem C5_cancel_propagates (i : String) (e : Bool) (tok : TokenState)
    (children : List SScope) (r : CancellationReason) (m : Option String)
    (now : Nat) (prop : Bool) (htok : tok.is_cancelled = false) :
    ((Cancellable.cancel now r m prop (.mk i e tok children)).token.is_cancelled = true ∧
      (Cancellable.cancel now r m prop (.mk i e tok children)).token.reason = some r ∧
      (Cancellable.cancel now r m prop (.mk i e tok children)).token.message = m) ∧
    ((Cancellable.cancel now r m false (.mk i e tok children)).children =
      children.map (fun c => if c.entered then linkFire now (tok.id.take 8) c else c)) ∧
    ((Cancellable.cancel now r m true (.mk i e tok children)).children =
      children.map (fun c =>
        if c.entered then cancelLinked now (tok.id.take 8) c
        else Cancellable.cancel now .parent
          (some ("Parent operation " ++ i.take 8 ++ " cancelled")) true c)) ∧
    (∀ c ∈ children, c.entered = true → c.token.is_cancelled = false →
      (linkFire now (tok.id.take 8) c).token.is_cancelled = true ∧
      (linkFire now (tok.id.take 8) c).token.reason = some .parent ∧
      (linkFire now (tok.id.take 8) c).token.message =
        some ("Linked token " ++ tok.id.take 8 ++ " was cancelled")) ∧
    (∀ c ∈ children, c.entered = true → c.token.is_cancelled = false →
      (cancelLinked now (tok.id.take 8) c).token.is_cancelled = true ∧
      (cancelLinked now (tok.id.take 8) c).token.reason = some .parent ∧
      (cancelLinked now (tok.id.take 8) c).token.message =
        some ("Linked token " ++ tok.id.take 8 ++ " was cancelled")) ∧
    (∀ c ∈ children, c.token.is_cancelled = false →
      (Cancellable.cancel now .parent
          (some ("Parent operation " ++ i.take 8 ++ " cancelled")) true c).token.is_cancelled = true ∧
      (Cancellable.cancel now .parent
          (some ("Parent operation " ++ i.take 8 ++ " cancelled")) true c).token.reason =
        some CancellationReason.parent ∧
      (Cancellable.cancel now .parent
          (some ("Parent operation " ++ i.take 8 ++ " cancelled")) true c).token.message =
        some ("Parent operation " ++ i.take 8 ++ " cancelled")) := by
  refine ⟨cancel_token now r m prop _ (by simpa [SScope.token] using htok),
    ?_, ?_, ?_, ?_, ?_⟩
  · simp [Cancellable.cancel, htok, SScope.children, linkFireChildren_map]
  · simp [Cancellable.cancel, htok, SScope.children, cancelLinkedChildren_map]
  · intro c hc he hct
    exact linkFire_token now (tok.id.take 8) c hct
  · intro c hc he hct
    exact cancelLinked_token now (tok.id.take 8) c hct
  · intro c hc hct
    exact cancel_token now .parent
      (some ("Parent operation " ++ i.take 8 ++ " cancelled")) true c hct

/-- Witness for C5 (amended): a parent with an entered and a not-entered
child; the entered child ends with the linked-token message, the
not-entered child with the parent-operation message, the parent with the
call's reason. -/
theorem C5_cancel_propagates_witness :
    (Cancellable.cancel 7 .manual (some "stop") true
        (.mk "parent-op-id" false (freshToken "ptok-long-id")
          [.mk "child-e" true (freshToken "cte") [],
           .mk "child-n" false (freshToken "ctn") []])).token.reason =
      some CancellationReason.manual ∧
    (cancelLinked 7 (String.take "ptok-long-id" 8)
        (.mk "child-e" true (freshToken "cte") [])).token.message =
      some "Linked token ptok-lon was cancelled" ∧
    (Cancellable.cancel 7 .parent
        (some ("Parent operation " ++ String.take "parent-op-id" 8 ++ " cancelled")) true
        (.mk "child-n" false (freshToken "ctn") [])).token.message =
      some "Parent operation parent-o cancelled" := by
  have h := C5_cancel_propagates "parent-op-id" false (freshToken "ptok-long-id")
    [.mk "child-e" true (freshToken "cte") [],
     .mk "child-n" false (freshToken "ctn") []]
    .manual (some "stop") 7 true (by decide)
  have he := (h.2.2.2.2.1 (.mk "child-e" true (freshToken "cte") [])
    (by simp) (by decide) (by decide)).2.2
  have hn := (h.2.2.2.2.2 (.mk "child-n" false (freshToken "ctn") [])
    (by simp) (by decide)).2.2
  refine ⟨h.1.2.1, ?_, ?_⟩
  · rw [show String.take "ptok-long-id" 8 =
        (freshToken "ptok-long-id").id.take 8 from rfl, he]
    decide
  · rw [hn]
    decide

/-! ### Helper lemmas about the registry -/

/-- Trimming only keeps elements that were in the history. -/
theorem mem_trimHistory {limit : Nat} {h : List OpContext} {c : OpContext}
    (hc : c ∈ trimHistory limit h) : c ∈ h := by
  unfold trimHistory at hc
  split at hc
  · exact List.mem_of_mem_drop hc
  · exact hc

/-- Trimmed history length is the minimum of the old length and the cap. -/
theorem trimHistory_length (limit : Nat) (h : List OpContext) :
    (trimHistory limit h).length = min h.length limit := by
  unfold trimHistory
  split <;> rename_i hl
  · rw [List.length_drop]
    omega
  · omega

/-- With a positive cap, the just-appended element survives the trim. -/
theorem mem_trimHistory_append (limit : Nat) (h : List OpContext)
    (x : OpContext) (hl : 1 ≤ limit) : x ∈ trimHistory limit (h ++ [x]) := by
  unfold trimHistory
  split <;> rename_i hcond
  · rw [List.drop_append_of_le_length (by simp at hcond ⊢; omega)]
    simp
  · simp

/-- `regDisjoint` unfolded to a proposition. -/
theorem regDisjoint_iff (s : RegistryState) :
    regDisjoint s = true ↔ ∀ p ∈ s.operations, ∀ c ∈ s.history, p.1 ≠ c.id := by
  simp [regDisjoint, List.all_eq_true]

/-- One registry operation with a history-fresh register preserves the
invariant, never changes the cap, and keeps the history within the cap. -/
theorem regApply_preserves (s : RegistryState) (op : RegOp)
    (hinv : RegInv s) (hfresh : regFresh s op) :
    RegInv (regApply s op) ∧
    (regApply s op).history_limit = s.history_limit ∧
    (s.history.length ≤ s.history_limit →
      (regApply s op).history.length ≤ s.history_limit) := by
  obtain ⟨hdisj, hkeys, hmatch⟩ := hinv
  rw [regDisjoint_iff] at hdisj
  cases op with
  | registerOp ctx =>
      have hfr : ∀ c ∈ s.history, ctx.id ≠ c.id := hfresh
      refine ⟨⟨?_, ?_, ?_⟩, rfl, fun h => h⟩
      · rw [regDisjoint_iff]
        intro p hp c hc
        simp only [regApply, OperationRegistry.register] at hp hc
        split at hp
        · obtain ⟨q, hq, hqe⟩ := List.mem_map.mp hp
          by_cases hqi : q.1 = ctx.id
          · rw [← hqe]
            simp only [hqi, beq_self_eq_true, if_true]
            exact hfr c hc
          · rw [← hqe]
            simp only [beq_iff_eq, hqi, if_false]
            exact hdisj q hq c hc
        · rcases List.mem_append.mp hp with hq | hq
          · exact hdisj p hq c hc
          · simp only [List.mem_singleton] at hq
            rw [hq]
            exact hfr c hc
      · simp only [regApply, OperationRegistry.register]
        split <;> rename_i hany
        · have hmap : (s.operations.map
              (fun p => if p.1 == ctx.id then (ctx.id, ctx) else p)).map Prod.fst =
              s.operations.map Prod.fst := by
            rw [List.map_map]
            apply List.map_congr_left
            intro p hp
            by_cases hpi : p.1 = ctx.id
            · simp [hpi]
            · simp [hpi]
          rw [hmap]
          exact hkeys
        · rw [List.map_append]
          refine hkeys.append (List.nodup_singleton _) ?_
          intro x hx hx'
          simp only [List.map_cons, List.map_nil, List.mem_singleton] at hx'
          obtain ⟨q, hq, hqe⟩ := List.mem_map.mp hx
          rw [Bool.not_eq_true] at hany
          rw [List.any_eq_false] at hany
          exact absurd (by rw [beq_iff_eq, hqe, hx'] :
            (fun p => p.1 == ctx.id) q = true) (by simpa using hany q hq)
      · intro p hp
        simp only [regApply, OperationRegistry.register] at hp
        split at hp
        · obtain ⟨q, hq, hqe⟩ := List.mem_map.mp hp
          by_cases hqi : q.1 = ctx.id
          · rw [← hqe]; simp [hqi]
          · rw [← hqe]; simp only [beq_iff_eq, hqi, if_false]
            exact hmatch q hq
        · rcases List.mem_append.mp hp with hq | hq
          · exact hmatch p hq
          · simp only [List.mem_singleton] at hq
            rw [hq]
  | unregisterOp i =>
      cases hfind : s.operations.find? (fun p => p.1 == i) with
      | none =>
          simp only [regApply, OperationRegistry.unregister, hfind]
          exact ⟨⟨by rwa [regDisjoint_iff], hkeys, hmatch⟩, by simp, by simp⟩
      | some p0 =>
          have hp0mem : p0 ∈ s.operations := List.mem_of_find?_eq_some hfind
          have hp0key : p0.1 = i := by
            have := List.find?_some hfind
            simpa [beq_iff_eq] using this
          refine ⟨⟨?_, ?_, ?_⟩, ?_, ?_⟩
          · rw [regDisjoint_iff]
            intro p hp c hc
            simp only [regApply, OperationRegistry.unregister, hfind] at hp hc
            have hpmem := List.mem_of_mem_filter hp
            have hpne : p.1 ≠ i := by
              have := List.of_mem_filter hp
              simpa [bne_iff_ne] using this
            have hc' := mem_trimHistory hc
            rcases List.mem_append.mp hc' with hch | hcp
            · exact hdisj p hpmem c hch
            · simp only [List.mem_singleton] at hcp
              rw [hcp, ← hmatch p0 hp0mem, hp0key]
              exact hpne
          · simp only [regApply, OperationRegistry.unregister, hfind]
            exact List.Nodup.sublist (List.Sublist.map _ (List.filter_sublist _)) hkeys
          · intro p hp
            simp only [regApply, OperationRegistry.unregister, hfind] at hp
            exact hmatch p (List.mem_of_mem_filter hp)
          · simp [regApply, OperationRegistry.unregister, hfind]
          · intro hlen
            simp only [regApply, OperationRegistry.unregister, hfind,
              trimHistory_length]
            omega
  | cleanupOp ot kf now =>
      refine ⟨⟨?_, ?_, ?_⟩, rfl, ?_⟩
      · rw [regDisjoint_iff]
        intro p hp c hc
        simp only [regApply, OperationRegistry.cleanup_completed] at hp hc
        have hpmem := List.mem_of_mem_filter hp
        have hpkeep : cleanupRemoves kf ot now p.2 = false := by
          have := List.of_mem_filter hp
          simpa using this
        have hc' := mem_trimHistory hc
        rcases List.mem_append.mp hc' with hch | hcr
        · exact hdisj p hpmem c hch
        · obtain ⟨q, hq, hqe⟩ := List.mem_map.mp hcr
          have hqmem := List.mem_of_mem_filter hq
          have hqrem : cleanupRemoves kf ot now q.2 = true := by
            simpa using List.of_mem_filter hq
          intro hpq
          have hkeyeq : p.1 = q.1 := by rw [hpq, ← hqe, hmatch q hqmem]
          have hpeq := List.inj_on_of_nodup_map hkeys hpmem hqmem hkeyeq
          rw [hpeq, hqrem] at hpkeep
          exact Bool.true_eq_false.mp hpkeep
      · simp only [regApply, OperationRegistry.cleanup_completed]
        exact List.Nodup.sublist (List.Sublist.map _ (List.filter_sublist _)) hkeys
      · intro p hp
        simp only [regApply, OperationRegistry.cleanup_completed] at hp
        exact hmatch p (List.mem_of_mem_filter hp)
      · intro hlen
        simp only [regApply, OperationRegistry.cleanup_completed,
          trimHistory_length]
        omega

/-- Invariant preservation over any valid sequence of registry operations. -/
theorem regRun_preserves (ops : List RegOp) :
    ∀ s : RegistryState, RegInv s → s.history.length ≤ s.history_limit →
      RegValid s ops →
      RegInv (regRun s ops) ∧
        (regRun s ops).history_limit = s.history_limit ∧
        (regRun s ops).history.length ≤ s.history_limit := by
  induction ops with
  | nil => intro s h1 h2 _; exact ⟨h1, rfl, h2⟩
  | cons op rest ih =>
      intro s h1 h2 hv
      cases hv with
      | cons _ _ _ hf hrest =>
          obtain ⟨hi, hl, hlen⟩ := regApply_preserves s op h1 hf
          have hpre : (regApply s op).history.length ≤ (regApply s op).history_limit := by
            rw [hl]; exact hlen h2
          obtain ⟨a, b, c⟩ := ih (regApply s op) hi hpre hrest
          refine ⟨?_, ?_, ?_⟩
          · simpa only [regRun] using a
          · simp only [regRun]
            rw [b, hl]
          · simp only [regRun]
            rw [hl] at c
            exact c

/-- C6 counterexample: registering an id, unregistering it, and registering
the same id again leaves the id present in the live table and in the
history at the same time, so the claimed invariant is not preserved by every
sequence of register/unregister/cleanup operations. -/
theorem C6_counterexample :
    regDisjoint (regRun initRegistry
      [RegOp.registerOp ⟨"a", .running, none⟩, RegOp.unregisterOp "a",
       RegOp.registerOp ⟨"a", .running, none⟩]) = false ∧
    (regRun initRegistry
      [RegOp.registerOp ⟨"a", .running, none⟩, RegOp.unregisterOp "a",
       RegOp.registerOp ⟨"a", .running, none⟩]).operations.map Prod.fst = ["a"] ∧
    (regRun initRegistry
      [RegOp.registerOp ⟨"a", .running, none⟩, RegOp.unregisterOp "a",
       RegOp.registerOp ⟨"a", .running, none⟩]).history.map OpContext.id = ["a"] := by
  refine ⟨by decide, by decide, by decide⟩

/-- C6 (amended): over every sequence of register/unregister/cleanup
operations in which each register uses an id not currently in the history,
the registry invariant is preserved: live and history ids stay disjoint and
the history never exceeds the configured cap; moreover unregister of a live
id removes it from the live table and pushes its context snapshot into the
history in the same single step. -/
theorem C6_registry_invariant (s : RegistryState) (ops : List RegOp)
    (i : String) (ctx : OpContext)
    (hinv : RegInv s) (hlen : s.history.length ≤ s.history_limit)
    (hvalid : RegValid s ops) :
    regDisjoint (regRun s ops) = true ∧
    (regRun s ops).history.length ≤ s.history_limit ∧
    (regRun s ops).history_limit = s.history_limit ∧
    (s.operations.find? (fun p => p.1 == i) = some (i, ctx) →
      1 ≤ s.history_limit →
      (∀ q ∈ (OperationRegistry.unregister s i).operations, q.1 ≠ i) ∧
      ctx ∈ (OperationRegistry.unregister s i).history) := by
  obtain ⟨a, b, c⟩ := regRun_preserves ops s hinv hlen hvalid
  refine ⟨a.1, c, b, ?_⟩
  intro hfind hone
  constructor
  · intro q hq
    simp only [OperationRegistry.unregister, hfind] at hq
    have := List.of_mem_filter hq
    simpa [bne_iff_ne] using this
  · simp only [OperationRegistry.unregister, hfind]
    exact mem_trimHistory_append _ _ _ hone

/-- Witness for C6 (amended): one live operation unregistered; the live
table empties, the snapshot lands in history, and the invariant holds. -/
theorem C6_registry_invariant_witness :
    regDisjoint (regRun
      { operations := [("a", ⟨"a", .completed, some 3⟩)], history := [],
        history_limit := 1000 } [RegOp.unregisterOp "a"]) = true ∧
    (⟨"a", .completed, some 3⟩ : OpContext) ∈
      (OperationRegistry.unregister
        { operations := [("a", ⟨"a", .completed, some 3⟩)], history := [],
          history_limit := 1000 } "a").history := by
  have h := C6_registry_invariant
    { operations := [("a", ⟨"a", .completed, some 3⟩)], history := [],
      history_limit := 1000 }
    [RegOp.unregisterOp "a"] "a" ⟨"a", .completed, some 3⟩
    ⟨by decide, by decide,
      by intro p hp; simp only [List.mem_singleton] at hp; subst hp; rfl⟩
    (by decide)
    (RegValid.cons _ _ _ trivial (RegValid.nil _))
  exact ⟨h.1, (h.2.2.2 (by decide) (by decide)).2⟩

/-! ### Helper lemmas about the bridge -/

/-- The startup drain forwards staged callables in order until the stream is
full and drops the rest. -/
theorem bridgeDrain_spec :
    ∀ (p q d : List Nat), q.length ≤ bridgeCapacity →
      bridgeDrain p q d = (q ++ p.take (bridgeCapacity - q.length),
                           d ++ p.drop (bridgeCapacity - q.length)) := by
  intro p
  induction p with
  | nil => intro q d h; simp [bridgeDrain]
  | cons c rest ih =>
      intro q d h
      by_cases hq : q.length < bridgeCapacity
      · simp only [bridgeDrain, if_pos hq]
        rw [ih (q ++ [c]) d (by simp; omega)]
        have hcap : bridgeCapacity - q.length = (bridgeCapacity - (q.length + 1)) + 1 := by
          omega
        rw [hcap]
        simp [List.take_succ_cons, List.drop_succ_cons, List.append_assoc]
      · have hq' : bridgeCapacity - q.length = 0 := by omega
        simp only [bridgeDrain, if_neg hq]
        rw [ih q (d ++ [c]) h]
        simp [hq', List.append_assoc]

/-- Pre-start submissions accumulate in the staging deque in order. -/
theorem bridge_submits_preStart :
    ∀ (cs : List Nat) (b : Bridge), b.started = false →
      bridgeRun b (cs.map BridgeOp.submitOp) =
        { b with pending := b.pending ++ cs } := by
  intro cs
  induction cs with
  | nil => intro b h; simp [bridgeRun]
  | cons c rest ih =>
      intro b h
      have hstep : bridgeStep b (BridgeOp.submitOp c) =
          { b with pending := b.pending ++ [c] } := by
        simp [bridgeStep, AnyioBridge.call_soon_threadsafe, h]
      simp only [List.map_cons, bridgeRun, hstep]
      rw [ih _ (by simpa using h)]
      simp

/-- `start` on a not-yet-started bridge: forwards the staged callables in
submission order up to capacity into the fresh stream, drops the rest. -/
theorem bridge_start_spec (b : Bridge) (h : b.started = false) :
    AnyioBridge.start b =
      { started := true, pending := [],
        queue := b.pending.take bridgeCapacity,
        dropped := b.dropped ++ b.pending.drop bridgeCapacity } := by
  simp only [AnyioBridge.start, h, Bool.false_eq_true, if_false]
  rw [bridgeDrain_spec b.pending [] b.dropped (by simp)]
  simp

/-- Running an appended op list is running the parts in sequence. -/
theorem bridgeRun_append (xs ys : List BridgeOp) :
    ∀ b, bridgeRun b (xs ++ ys) = bridgeRun (bridgeRun b xs) ys := by
  induction xs with
  | nil => intro b; simp [bridgeRun]
  | cons op rest ih =>
      intro b
      simp only [List.cons_append, bridgeRun]
      exact ih (bridgeStep b op)

/-- A callable absent from the queue and the staging deque never enters them
under operations that do not submit it. -/
theorem bridge_no_reentry (ops : List BridgeOp) :
    ∀ (b : Bridge) (c : Nat), c ∉ b.queue → c ∉ b.pending →
      (∀ op ∈ ops, op ≠ BridgeOp.submitOp c) →
      c ∉ (bridgeRun b ops).queue ∧ c ∉ (bridgeRun b ops).pending := by
  induction ops with
  | nil => intro b c h1 h2 _; exact ⟨h1, h2⟩
  | cons op rest ih =>
      intro b c h1 h2 hops
      have hop : op ≠ BridgeOp.submitOp c := hops op (List.mem_cons_self _ _)
      have hstep : c ∉ (bridgeStep b op).queue ∧ c ∉ (bridgeStep b op).pending := by
        cases op with
        | submitOp d =>
            have hdc : d ≠ c := fun h => hop (by rw [h])
            simp only [bridgeStep, AnyioBridge.call_soon_threadsafe]
            split_ifs <;> simp_all <;> omega
        | startOp =>
            by_cases hs : b.started = true
            · simp [bridgeStep, AnyioBridge.start, hs, h1, h2]
            · rw [show bridgeStep b .startOp = AnyioBridge.start b from rfl,
                bridge_start_spec b (by simpa using hs)]
              exact ⟨fun hc => h2 (List.take_subset _ _ hc), by simp⟩
      simp only [bridgeRun]
      exact ih _ c hstep.1 hstep.2 (fun op' h' => hops op' (List.mem_cons_of_mem _ h'))

/-- C8 counterexample: 1001 callables submitted before `start()`; at startup
only the first 1000 are forwarded into the capacity-1000 stream and the last
staged callable is dropped and never enters the queue, so not every
pre-start callable is forwarded. -/
theorem C8_counterexample :
    (bridgeRun initBridge
      (((List.range 1001).map BridgeOp.submitOp) ++ [BridgeOp.startOp])).queue.length
      = 1000 ∧
    (bridgeRun initBridge
      (((List.range 1001).map BridgeOp.submitOp) ++ [BridgeOp.startOp])).dropped
      = [1000] ∧
    (1000 : Nat) ∉ (bridgeRun initBridge
      (((List.range 1001).map BridgeOp.submitOp) ++ [BridgeOp.startOp])).queue := by
  have h1 := bridge_submits_preStart (List.range 1001) initBridge rfl
  have h2 : bridgeRun initBridge
      (((List.range 1001).map BridgeOp.submitOp) ++ [BridgeOp.startOp]) =
      AnyioBridge.start
        { started := false, pending := List.range 1001, queue := [], dropped := [] } := by
    rw [bridgeRun_append, h1]
    simp only [bridgeRun, bridgeStep]
    simp [initBridge]
  have hsplit : List.range 1001 = List.range 1000 ++ [1000] := by
    rw [show (1001 : Nat) = 1000 + 1 from rfl, List.range_succ]
  rw [h2, bridge_start_spec _ rfl]
  simp only [bridgeCapacity]
  rw [hsplit, List.take_left' (by simp), List.drop_left' (by simp)]
  refine ⟨by simp, by simp, ?_⟩
  simp [List.mem_range]

/-- C8 (amended): a callable submitted before `start()` is appended to the
thread-locked staging deque; when `start()` runs, the staged callables are
forwarded into the fresh capacity-1000 stream in submission order up to
capacity, the remainder being dropped; after start, a callable submitted
while the queue is full is dropped with a warning and, as long as it is not
resubmitted, never enters the queue, hence is never executed. -/
theorem C8_bridge_buffering (b : Bridge) (c : Nat) (ops : List BridgeOp) :
    (b.started = false →
      AnyioBridge.call_soon_threadsafe b c = { b with pending := b.pending ++ [c] }) ∧
    (b.started = false →
      AnyioBridge.start b =
        { started := true, pending := [],
          queue := b.pending.take bridgeCapacity,
          dropped := b.dropped ++ b.pending.drop bridgeCapacity }) ∧
    (b.started = true → b.queue.length < bridgeCapacity →
      AnyioBridge.call_soon_threadsafe b c = { b with queue := b.queue ++ [c] }) ∧
    (b.started = true → ¬ b.queue.length < bridgeCapacity →
      AnyioBridge.call_soon_threadsafe b c = { b with dropped := b.dropped ++ [c] } ∧
      (c ∉ b.queue → c ∉ b.pending → (∀ op ∈ ops, op ≠ BridgeOp.submitOp c) →
        c ∉ (bridgeRun (AnyioBridge.call_soon_threadsafe b c) ops).queue)) := by
  refine ⟨?_, ?_, ?_, ?_⟩
  · intro h; simp [AnyioBridge.call_soon_threadsafe, h]
  · intro h; exact bridge_start_spec b h
  · intro h hlt; simp [AnyioBridge.call_soon_threadsafe, h, hlt]
  · intro h hfull
    have hdrop : AnyioBridge.call_soon_threadsafe b c =
        { b with dropped := b.dropped ++ [c] } := by
      simp [AnyioBridge.call_soon_threadsafe, h, hfull]
    refine ⟨hdrop, ?_⟩
    intro hq hp hops
    rw [hdrop]
    exact (bridge_no_reentry ops
      { b with dropped := b.dropped ++ [c] } c hq hp hops).1

/-- Witness for C8 (amended): a full queue drops a new callable, which then
never appears in the queue across a further submission. -/
theorem C8_bridge_buffering_witness :
    AnyioBridge.call_soon_threadsafe
        { started := true, pending := [], queue := List.replicate 1000 9,
          dropped := [] } 5 =
      { started := true, pending := [], queue := List.replicate 1000 9,
        dropped := [5] } ∧
    (5 : Nat) ∉ (bridgeRun
      (AnyioBridge.call_soon_threadsafe
        { started := true, pending := [], queue := List.replicate 1000 9,
          dropped := [] } 5) [BridgeOp.submitOp 6]).queue := by
  have h := C8_bridge_buffering
    { started := true, pending := [], queue := List.replicate 1000 9,
      dropped := [] } 5 [BridgeOp.submitOp 6]
  have hfull : ¬ (List.replicate 1000 (9 : Nat)).length < bridgeCapacity := by
    rw [List.length_replicate]
    exact Nat.lt_irrefl 1000
  obtain ⟨hdrop, hnever⟩ := h.2.2.2 rfl hfull
  refine ⟨hdrop, hnever ?_ ?_ ?_⟩
  · intro hmem
    have h9 : (5 : Nat) = 9 :=
      List.eq_of_mem_replicate (show (5 : Nat) ∈ List.replicate 1000 9 from hmem)
    exact absurd h9 (by decide)
  · intro hmem
    exact (List.not_mem_nil 5) hmem
  · intro op hop
    rw [List.mem_singleton] at hop
    rw [hop]
    decide

/-- C9: constructing a timeout source (or a scope via `with_timeout`) with a
non-positive timeout fails with ValueError at construction, and constructing
a condition source with a non-positive check interval fails at construction,
so no source object exists whose monitoring could begin; positive durations
construct untriggered sources. -/
theorem C9_nonpositive_rejected (d i p : ℚ) (hd : d ≤ 0) (hi : i ≤ 0)
    (hp : 0 < p) :
    TimeoutSource.init d = .error "Timeout must be positive" ∧
    Cancellable.with_timeout d = .error "Timeout must be positive" ∧
    ConditionSource.init i = .error "Check interval must be positive" ∧
    TimeoutSource.init p = .ok { timeout := p, triggered := false } ∧
    Cancellable.with_timeout p = .ok { sources := [{ timeout := p, triggered := false }] } ∧
    ConditionSource.init p = .ok { check_interval := p, triggered := false } := by
  have hnp : ¬ p ≤ 0 := not_le.mpr hp
  refine ⟨?_, ?_, ?_, ?_, ?_, ?_⟩ <;>
    simp [TimeoutSource.init, ConditionSource.init, Cancellable.with_timeout,
      hd, hi, hnp, Except.map]

/-- Witness for C9: timeout -1 and interval 0 rejected, timeout 1/2 accepted. -/
theorem C9_nonpositive_rejected_witness :
    TimeoutSource.init (-1) = .error "Timeout must be positive" ∧
    Cancellable.with_timeout (-1) = .error "Timeout must be positive" ∧
    ConditionSource.init 0 = .error "Check interval must be positive" ∧
    TimeoutSource.init (1/2) = .ok { timeout := 1/2, triggered := false } := by
  have h := C9_nonpositive_rejected (-1) 0 (1/2) (by norm_num) (by norm_num)
    (by norm_num)
  exact ⟨h.1, h.2.1, h.2.2.1, h.2.2.2.1⟩
